import Mathlib

/-!
# Smart-Brightness: shallow embedding of the adaptive control engine

This file embeds the core components of the Smart-Brightness daemon
(`src/smooth_transition.rs`, `src/smoothing.rs`, `src/time_adjust.rs`,
`src/backlight.rs` and the pipeline helpers of `src/main.rs`) into Lean
and proves the spec's testable properties about them.

Modelling conventions:
* `u32` values become `ℕ`; all the arithmetic performed on them in the
  source stays well below `2^32` (steps are capped by the distance to the
  target, targets are clamped), so plain `ℕ` arithmetic is exact.  The one
  place where a float is cast to `u32` (`update_brightness`) models the
  saturating Rust cast explicitly.
* `f32` values become `ℚ`, with `f32::MAX` as its exact rational value and
  `f32::round` as round-half-away-from-zero.  The pipeline code only
  multiplies, adds and compares, so the rational model matches the source
  expression-for-expression.
* `Instant`/`Duration` become `ℕ` (milliseconds); `Instant::now()` becomes
  an explicit `now` argument, and `a.duration_since(b)` / `a.elapsed()`
  become saturating subtraction `now - b`, matching `Instant` semantics.
* Fallible hardware writes are abstracted by a `writeOk : Bool` argument;
  the embedded functions return what the source returns plus the mutated
  state.
-/

set_option maxHeartbeats 1000000

/-- `u32::abs_diff` from the Rust standard library. -/
def abs_diff (a b : ℕ) : ℕ := if a ≤ b then b - a else a - b

/-- `f32::MAX` as an exact rational: `(2 - 2⁻²³) · 2¹²⁷`. -/
def f32_MAX : ℚ := 2 ^ 128 - 2 ^ 104

/-- `f32::round`: round half away from zero. -/
def roundf (x : ℚ) : ℤ := if x < 0 then -⌊-x + 1 / 2⌋ else ⌊x + 1 / 2⌋

/-- A float-to-`u32` `as` cast in Rust saturates at the ends of the `u32`
range (the float is already rounded when this is applied in the source). -/
def u32_cast (m : ℤ) : ℕ := min m.toNat (2 ^ 32 - 1)

/-! ## `src/smooth_transition.rs` -/

/-- State of `SmoothTransition` (`src/smooth_transition.rs`). -/
structure SmoothTransition where
  target : ℕ
  current : ℕ
  step : ℕ
  min_step : ℕ
  max_step : ℕ
  last : ℕ
  interval : ℕ
  divisor : ℕ
deriving Repr, DecidableEq

/-- `SmoothTransition::new`; `Instant::now()` is the explicit `now`. -/
def SmoothTransition.new (initial interval_ms divisor max_step now : ℕ) :
    SmoothTransition :=
  { target := initial
    current := initial
    step := 1
    min_step := 1
    max_step := max max_step 1
    last := now
    interval := interval_ms
    divisor := max divisor 1 }

/-- `SmoothTransition::set_target`: clamp the target into `[0, max_brightness]`
and recompute `step = (diff / divisor).max(min_step).min(max_step)`. -/
def SmoothTransition.set_target (s : SmoothTransition) (t max_brightness : ℕ) :
    SmoothTransition :=
  let target := min t max_brightness
  let diff := abs_diff target s.current
  { s with
    target := target
    step := min (max (diff / s.divisor) s.min_step) s.max_step }

/-- Distance still to travel: `self.target.abs_diff(self.current)`. -/
def SmoothTransition.dist (s : SmoothTransition) : ℕ := abs_diff s.target s.current

/-- `SmoothTransition::update`: no-op when converged or when less than
`interval` has elapsed since `last`; otherwise move `current` toward
`target` by `min(step, |target - current|)` and return the new value. -/
def SmoothTransition.update (s : SmoothTransition) (now : ℕ) :
    Option ℕ × SmoothTransition :=
  if s.current = s.target then (none, s)
  else if now - s.last < s.interval then (none, s)
  else
    let step := min s.step (abs_diff s.target s.current)
    let c :=
      if s.current < s.target then min (s.current + step) s.target
      else max (s.current - step) s.target
    (some c, { s with current := c, last := now })

/-- One scheduler-tick actuation exactly `interval` after the last applied
step: calls `update` at the first due instant. -/
def SmoothTransition.tick (s : SmoothTransition) : SmoothTransition :=
  (s.update (s.last + s.interval)).2

/-- The `step ∈ [1, max_step]` invariant of `TransitionState`, together with
the constructor-established facts (`min_step = 1`, `max_step ≥ 1`) that keep
it inductive. -/
def SmoothTransition.Inv (s : SmoothTransition) : Prop :=
  s.min_step = 1 ∧ 1 ≤ s.max_step ∧ 1 ≤ s.step ∧ s.step ≤ s.max_step

instance (s : SmoothTransition) : Decidable s.Inv := by
  unfold SmoothTransition.Inv; infer_instance

/-! ### Lemmas about `SmoothTransition.update` -/

theorem SmoothTransition.update_converged (s : SmoothTransition) (now : ℕ)
    (h : s.current = s.target) : s.update now = (none, s) := by
  simp [SmoothTransition.update, h]

theorem SmoothTransition.update_due (s : SmoothTransition) (now : ℕ)
    (hne : s.current ≠ s.target) (hdue : s.interval ≤ now - s.last) :
    s.update now =
      (some (if s.current < s.target
              then min (s.current + min s.step (abs_diff s.target s.current)) s.target
              else max (s.current - min s.step (abs_diff s.target s.current)) s.target),
       { s with
         current := if s.current < s.target
              then min (s.current + min s.step (abs_diff s.target s.current)) s.target
              else max (s.current - min s.step (abs_diff s.target s.current)) s.target,
         last := now }) := by
  rw [SmoothTransition.update, if_neg hne, if_neg (by omega)]

/-- A due, non-converged update shrinks the distance by exactly
`min step dist`. -/
theorem SmoothTransition.dist_update_due (s : SmoothTransition) (now : ℕ)
    (hne : s.current ≠ s.target) (hdue : s.interval ≤ now - s.last) :
    (s.update now).2.dist = s.dist - min s.step s.dist := by
  rw [SmoothTransition.update_due s now hne hdue]
  simp only [SmoothTransition.dist, abs_diff, min_def, max_def]
  have hne' : s.current ≠ s.target := hne
  split_ifs <;> omega

theorem SmoothTransition.update_fields (s : SmoothTransition) (now : ℕ) :
    (s.update now).2.step = s.step ∧ (s.update now).2.target = s.target ∧
      (s.update now).2.interval = s.interval ∧ (s.update now).2.max_step = s.max_step ∧
      (s.update now).2.min_step = s.min_step := by
  unfold SmoothTransition.update
  split
  · exact ⟨rfl, rfl, rfl, rfl, rfl⟩
  · split
    · exact ⟨rfl, rfl, rfl, rfl, rfl⟩
    · exact ⟨rfl, rfl, rfl, rfl, rfl⟩

theorem SmoothTransition.tick_step (s : SmoothTransition) : s.tick.step = s.step :=
  (SmoothTransition.update_fields s (s.last + s.interval)).1

theorem SmoothTransition.tick_due (s : SmoothTransition) :
    s.interval ≤ (s.last + s.interval) - s.last := by omega

/-- Each exactly-spaced tick removes at least one unit of distance
(assuming the step invariant's lower bound). -/
theorem SmoothTransition.dist_tick_le (s : SmoothTransition) (hstep : 1 ≤ s.step) :
    s.tick.dist ≤ s.dist - 1 := by
  by_cases h : s.current = s.target
  · have h0 : s.dist = 0 := by unfold SmoothTransition.dist abs_diff; split <;> omega
    unfold SmoothTransition.tick
    rw [SmoothTransition.update_converged s _ h]
    simp [h0]
  · have hd : 1 ≤ s.dist := by unfold SmoothTransition.dist abs_diff; split <;> omega
    have h3 : s.tick.dist = s.dist - min s.step s.dist :=
      SmoothTransition.dist_update_due s (s.last + s.interval) h (s.tick_due)
    omega

/-- Iterating `dist s` exactly-spaced ticks converges. -/
theorem SmoothTransition.converges (k : ℕ) :
    ∀ s : SmoothTransition, 1 ≤ s.step → s.dist ≤ k →
      (SmoothTransition.tick^[k] s).current = (SmoothTransition.tick^[k] s).target := by
  induction k with
  | zero =>
    intro s _ hd
    simp only [Function.iterate_zero, id]
    revert hd
    unfold SmoothTransition.dist abs_diff
    split <;> omega
  | succ n ih =>
    intro s hstep hd
    rw [Function.iterate_succ_apply]
    exact ih s.tick (by rw [s.tick_step]; exact hstep)
      (by have := s.dist_tick_le hstep; omega)

/-! ### Claim C1 -/

/-- A concrete transition state used to instantiate the C1 theorem. -/
def sC1 : SmoothTransition :=
  { target := 10, current := 0, step := 2, min_step := 1, max_step := 5
    last := 0, interval := 100, divisor := 3 }

/-- **C1**: with `step ∈ [1, max_step]`, a due `update()` (at least `interval`
after the last applied step) strictly shrinks `|current − target|` while the
state is not converged, never increases it, never moves `current` past
`target`, and iterating exactly-spaced due updates reaches the target after
at most `dist` steps. -/
theorem C1_transition_monotonic_convergence (s : SmoothTransition)
    (h1 : 1 ≤ s.step) (_h2 : s.step ≤ s.max_step)
    (hne : s.current ≠ s.target) (now : ℕ) (hdue : s.interval ≤ now - s.last) :
    (s.update now).2.dist < s.dist ∧
    (s.update now).2.dist ≤ s.dist ∧
    min s.current s.target ≤ (s.update now).2.current ∧
    (s.update now).2.current ≤ max s.current s.target ∧
    (SmoothTransition.tick^[s.dist] s).current =
      (SmoothTransition.tick^[s.dist] s).target := by
  have hd : 1 ≤ s.dist := by
    unfold SmoothTransition.dist abs_diff
    split <;> omega
  have hshrink := SmoothTransition.dist_update_due s now hne hdue
  have hbounds : min s.current s.target ≤ (s.update now).2.current ∧
      (s.update now).2.current ≤ max s.current s.target := by
    rw [SmoothTransition.update_due s now hne hdue]
    simp only [abs_diff]
    split_ifs <;> constructor <;> omega
  exact ⟨by omega, by omega, hbounds.1, hbounds.2,
    SmoothTransition.converges s.dist s h1 le_rfl⟩

/-- Witness for C1 at a concrete state: `current = 0`, `target = 10`,
`step = 2`, `interval = 100`, updated at `now = 100`. -/
theorem C1_witness :
    (sC1.update 100).2.dist < sC1.dist ∧
    (SmoothTransition.tick^[sC1.dist] sC1).current =
      (SmoothTransition.tick^[sC1.dist] sC1).target :=
  ⟨(C1_transition_monotonic_convergence sC1 (by decide) (by decide) (by decide)
      100 (by decide)).1,
   (C1_transition_monotonic_convergence sC1 (by decide) (by decide) (by decide)
      100 (by decide)).2.2.2.2⟩

/-! ### Claim C7 -/

/-- A concrete transition state for the C7 example:
`current = 500, divisor = 20, max_step = 60`. -/
def sC7 : SmoothTransition :=
  { target := 500, current := 500, step := 1, min_step := 1, max_step := 60
    last := 0, interval := 100, divisor := 20 }

/-- **C7**: the invariant `step ∈ [1, max_step]` holds after `new`, and is
preserved by `set_target` (which recomputes `step` as
`clamp(|target−current| / divisor, 1, max_step)`) and by `update`; at
`current = 500, target = 520, divisor = 20, max_step = 60` the recomputed
step is `1`. -/
theorem C7_step_invariant (s : SmoothTransition) (h : s.Inv)
    (t mb now i it dv ms n0 : ℕ) :
    (SmoothTransition.new i it dv ms n0).Inv ∧
    (s.set_target t mb).Inv ∧
    ((s.update now).2).Inv ∧
    (s.set_target t mb).step =
      min (max (abs_diff (min t mb) s.current / s.divisor) 1) s.max_step ∧
    (sC7.set_target 520 1000).step = 1 := by
  obtain ⟨hm1, hmax, hs1, hsm⟩ := h
  refine ⟨?_, ?_, ?_, ?_, by decide⟩
  · exact ⟨rfl, by simp [SmoothTransition.new], by simp [SmoothTransition.new],
      by simp [SmoothTransition.new]⟩
  · refine ⟨hm1, hmax, ?_, ?_⟩ <;> simp only [SmoothTransition.set_target] <;> omega
  · obtain ⟨f1, _, _, f4, f5⟩ := SmoothTransition.update_fields s now
    exact ⟨by rw [f5]; exact hm1, by rw [f4]; exact hmax,
           by rw [f1]; exact hs1, by rw [f1, f4]; exact hsm⟩
  · simp only [SmoothTransition.set_target, hm1]

/-- Witness for C7 at the concrete state `sC7`. -/
theorem C7_witness :
    (SmoothTransition.new 3 100 0 0 7).Inv ∧ (sC7.set_target 520 1000).Inv ∧
    (sC7.set_target 520 1000).step = 1 :=
  ⟨(C7_step_invariant sC7 (by decide) 520 1000 0 3 100 0 0 7).1,
   (C7_step_invariant sC7 (by decide) 520 1000 0 3 100 0 0 7).2.1,
   (C7_step_invariant sC7 (by decide) 520 1000 0 3 100 0 0 7).2.2.2.2⟩

/-! ### Claim C2

The actuation step of the scheduler loop (`src/main.rs` lines 273-277) is

    if let Some(val) = transition.update() {
        let _ = bl.set(val);
        work_done = true;
    }

`transition.update()` mutates `current` (and `last`) *before* the hardware
write is attempted, and the result of `bl.set(val)` is discarded, so the
controller state after the tick is the same whether the write succeeded or
failed. -/

/-- One actuation step of the scheduler tick: run `transition.update()` and,
if it yields a value, attempt the hardware write whose outcome is `writeOk`
and discard that outcome.  Returns the controller state after the tick and
the value sent to the hardware (if any). -/
def actuation_step (s : SmoothTransition) (now : ℕ) (writeOk : Bool) :
    SmoothTransition × Option ℕ :=
  match s.update now with
  | (some v, s2) =>
    let _ := writeOk   -- `let _ = bl.set(val);` — the write result is dropped
    (s2, some v)
  | (none, s2) => (s2, none)

/-- A concrete transitioning state: `current = 10`, `target = 20`, `step = 2`. -/
def sC2 : SmoothTransition :=
  { target := 20, current := 10, step := 2, min_step := 1, max_step := 5
    last := 0, interval := 100, divisor := 3 }

/-- **C2 counterexample**: at `current = 10, target = 20, step = 2`, a due
tick whose hardware write *fails* (`writeOk = false`) still advances the
controller to `current = 12` (the state is not left unchanged), and the next
due tick sends `14`, not the failed value `12` again. -/
theorem C2_counterexample :
    (actuation_step sC2 100 false).2 = some 12 ∧
    (actuation_step sC2 100 false).1.current = 12 ∧
    sC2.current = 10 ∧
    ((actuation_step sC2 100 false).1.update 200).1 = some 14 := by
  decide

/-- **C2 amended**: a failed hardware write has no effect at all on the
Transition Controller — the tick's controller state and emitted value are
those of `update()` irrespective of the write outcome, so `current` advances
even when the write fails and the failed value is not re-sent. -/
theorem C2_write_failure_ignored (s : SmoothTransition) (now : ℕ) (writeOk : Bool) :
    actuation_step s now writeOk = actuation_step s now true ∧
    (actuation_step s now writeOk).1 = (s.update now).2 ∧
    (actuation_step s now writeOk).2 = (s.update now).1 := by
  unfold actuation_step
  rcases h : s.update now with ⟨v, s2⟩
  cases v <;> simp

/-! ## `src/smoothing.rs` -/

/-- State of `Ema` (`src/smoothing.rs`). -/
structure Ema where
  alpha : ℚ
  value : ℚ
  init : Bool
deriving Repr, DecidableEq

/-- `Ema::new`: `alpha.clamp(0.0, 1.0)`, `value = 0`, uninitialized. -/
def Ema.new (alpha : ℚ) : Ema :=
  { alpha := min (max alpha 0) 1, value := 0, init := false }

/-- `Ema::update`: the first sample seeds `value` directly; later samples
blend `alpha·x + (1−alpha)·value`.  Returns the value and the new state. -/
def Ema.update (e : Ema) (x : ℚ) : ℚ × Ema :=
  if e.init then
    let v := e.alpha * x + (1 - e.alpha) * e.value
    (v, { e with value := v })
  else
    (x, { e with value := x, init := true })

/-! ### Claim C8 -/

/-- **C8**: for every `alpha` and input `x`, the first `update` after
construction returns exactly `x` (and marks the state initialized); every
subsequent update returns `alpha·x + (1−alpha)·value`. -/
theorem C8_ema_first_sample (a x y : ℚ) (e : Ema) (h : e.init = true) :
    ((Ema.new a).update x).1 = x ∧
    ((Ema.new a).update x).2.init = true ∧
    ((Ema.new a).update x).2.value = x ∧
    (e.update y).1 = e.alpha * y + (1 - e.alpha) * e.value := by
  refine ⟨?_, ?_, ?_, ?_⟩ <;> simp [Ema.update, Ema.new, h]

/-- Witness for C8 at `alpha = 1/2`, `x = 3/4` and an initialized state. -/
theorem C8_witness :
    ((Ema.new (1/2)).update (3/4)).1 = 3/4 ∧
    ((Ema.update ⟨1/2, 1/4, true⟩ (2/3)).1 =
      (1/2 : ℚ) * (2/3) + (1 - 1/2) * (1/4)) :=
  ⟨(C8_ema_first_sample (1/2) (3/4) (2/3) ⟨1/2, 1/4, true⟩ rfl).1,
   (C8_ema_first_sample (1/2) (3/4) (2/3) ⟨1/2, 1/4, true⟩ rfl).2.2.2⟩

/-! ## `src/time_adjust.rs` -/

/-- State of `TimeAdjuster` (`src/time_adjust.rs`); hours are `u8` in the
source, read from the wall clock as values in `0..24`. -/
structure TimeAdjuster where
  day_multiplier : ℚ
  night_multiplier : ℚ
  day_start_hour : ℕ
  night_start_hour : ℕ
deriving Repr, DecidableEq

/-- `TimeAdjuster::is_day`. -/
def TimeAdjuster.is_day (t : TimeAdjuster) (hour : ℕ) : Bool :=
  if t.day_start_hour ≤ t.night_start_hour then
    decide (t.day_start_hour ≤ hour ∧ hour < t.night_start_hour)
  else
    decide (t.day_start_hour ≤ hour ∨ hour < t.night_start_hour)

/-- `TimeAdjuster::factor_now`, with the wall-clock hour made an explicit
argument. -/
def TimeAdjuster.factor_for (t : TimeAdjuster) (hour : ℕ) : ℚ :=
  if t.is_day hour then t.day_multiplier else t.night_multiplier

/-- `TimeAdjuster::adjust`, with the wall-clock hour made explicit:
`(normalized_luma * factor).clamp(0.0, 1.0)`. -/
def TimeAdjuster.adjust (t : TimeAdjuster) (hour : ℕ) (normalized_luma : ℚ) : ℚ :=
  min (max (normalized_luma * t.factor_for hour) 0) 1

/-! ### Claim C6 -/

/-- The wrap-around example profile: `day_start_hour = 18`,
`night_start_hour = 6` (multipliers are the source defaults). -/
def tC6 : TimeAdjuster :=
  { day_multiplier := 21/20, night_multiplier := 19/20
    day_start_hour := 18, night_start_hour := 6 }

/-- **C6**: `adjust` returns `clamp(smoothed · factor_for(hour), 0, 1)` where
`factor_for` selects the day multiplier exactly on the (possibly
midnight-wrapping) day window; with `day_start_hour = 18`,
`night_start_hour = 6`, hour 20 and hour 2 are day and hour 10 is night. -/
theorem C6_circadian_adjust (t : TimeAdjuster) (hour : ℕ) (x : ℚ) :
    t.adjust hour x = min (max (x * t.factor_for hour) 0) 1 ∧
    t.factor_for hour =
      (if t.is_day hour then t.day_multiplier else t.night_multiplier) ∧
    (t.is_day hour = true ↔
      (t.day_start_hour ≤ t.night_start_hour ∧
        t.day_start_hour ≤ hour ∧ hour < t.night_start_hour) ∨
      (t.night_start_hour < t.day_start_hour ∧
        (t.day_start_hour ≤ hour ∨ hour < t.night_start_hour))) ∧
    (tC6.is_day 20 = true ∧ tC6.is_day 2 = true ∧ tC6.is_day 10 = false) := by
  refine ⟨rfl, rfl, ?_, by decide⟩
  unfold TimeAdjuster.is_day
  split_ifs with h <;> simp <;> omega

/-! ## `update_brightness` (`src/main.rs` lines 427-451) -/

/-- The loop's dead-band state: `has_luma` / `last_adjusted_luma`
(`src/main.rs` lines 228-229). -/
structure LumaState where
  has_luma : Bool
  last_adjusted_luma : ℚ
deriving Repr, DecidableEq

/-- `update_brightness` (`src/main.rs` lines 427-451): dead-band gate on the
adjusted luma, then `adjusted.mul_add(range_f32, real_min).round() as u32`
clamped by `.clamp(real_min, real_max).min(hardware_max)`.  Returns the
optional new hardware target and the mutated dead-band state. -/
def update_brightness (adjusted : ℚ) (st : LumaState) (min_luma_delta : ℚ)
    (range_f32 : ℚ) (real_min real_max hardware_max : ℕ) :
    Option ℕ × LumaState :=
  let luma_delta :=
    if st.has_luma then |adjusted - st.last_adjusted_luma| else f32_MAX
  if st.has_luma ∧ luma_delta < min_luma_delta then
    (none, { st with last_adjusted_luma := adjusted })
  else
    let mapped := u32_cast (roundf (adjusted * range_f32 + (real_min : ℚ)))
    let final_target := min (min (max mapped real_min) real_max) hardware_max
    (some final_target, { has_luma := true, last_adjusted_luma := adjusted })

/-- The spec's § 4.2 step 5 mapping, written from the spec's words for
comparison with the code path above:
`round(adjusted·(real_max−real_min) + real_min)` clamped into
`[real_min, min(real_max, hardware_max)]`. -/
def spec_mapped_target (adjusted : ℚ) (real_min real_max hardware_max : ℕ) : ℕ :=
  (min (max (roundf (adjusted * ((real_max : ℚ) - (real_min : ℚ)) + (real_min : ℚ)))
        (real_min : ℤ))
    (min (real_max : ℤ) (hardware_max : ℤ))).toNat


/-- Evaluation rule for `roundf` at a nonnegative concrete input. -/
theorem roundf_eq (x : ℚ) (n : ℤ) (h0 : ¬ x < 0) (h1 : (n : ℚ) ≤ x + 1 / 2)
    (h2 : x + 1 / 2 < n + 1) : roundf x = n := by
  unfold roundf
  rw [if_neg h0]
  exact Int.floor_eq_iff.mpr ⟨h1, by exact_mod_cast h2⟩

/-! ### Claim C3 -/

/-- **C3**: whenever the dead-band gate does not suppress, the produced
target is exactly the spec's `round(adjusted·(real_max−real_min)+real_min)`
clamped into `[real_min, min(real_max, hardware_max)]`; that value lies in
the interval, and `adjusted = 1` with `real_min = 47, real_max = 937,
hardware_max = 900` yields `900` (the range fed to the code is
`real_max − real_min = 890`, as computed by `run_brightness_loop`). -/
theorem C3_hardware_mapping (adjusted : ℚ) (st : LumaState) (min_delta : ℚ)
    (real_min real_max hardware_max : ℕ)
    (hnosup : st.has_luma = false ∨ min_delta ≤ |adjusted - st.last_adjusted_luma|)
    (h1 : real_min ≤ real_max) (h2 : real_min ≤ hardware_max)
    (h3 : real_max ≤ 2 ^ 32 - 1) :
    (update_brightness adjusted st min_delta ((real_max : ℚ) - (real_min : ℚ))
        real_min real_max hardware_max).1 =
      some (spec_mapped_target adjusted real_min real_max hardware_max) ∧
    real_min ≤ spec_mapped_target adjusted real_min real_max hardware_max ∧
    spec_mapped_target adjusted real_min real_max hardware_max
      ≤ min real_max hardware_max ∧
    (update_brightness 1 ⟨false, 0⟩ (1/100) (((937 : ℕ) : ℚ) - ((47 : ℕ) : ℚ))
        47 937 900).1 = some 900 := by
  have hgate : ¬(st.has_luma = true ∧
      (if st.has_luma = true then |adjusted - st.last_adjusted_luma| else f32_MAX)
        < min_delta) := by
    rcases hnosup with h | h
    · rintro ⟨hh, -⟩; rw [h] at hh; exact Bool.false_ne_true hh
    · rintro ⟨hh, hlt⟩
      rw [if_pos hh] at hlt
      exact absurd h (not_le.mpr hlt)
  refine ⟨?_, ?_, ?_, ?_⟩
  · rw [update_brightness, if_neg hgate]
    simp only [spec_mapped_target, u32_cast, Option.some.injEq]
    omega
  · simp only [spec_mapped_target]; omega
  · simp only [spec_mapped_target]; omega
  · have hr : roundf ((1 : ℚ) * (((937 : ℕ) : ℚ) - ((47 : ℕ) : ℚ)) + ((47 : ℕ) : ℚ))
        = 937 := by
      have harg : ((1 : ℚ) * (((937 : ℕ) : ℚ) - ((47 : ℕ) : ℚ)) + ((47 : ℕ) : ℚ))
          = (937 : ℚ) := by push_cast; ring
      rw [harg]
      exact roundf_eq 937 937 (by norm_num) (by norm_num) (by norm_num)
    rw [update_brightness, if_neg (by simp)]
    simp only [u32_cast, hr]
    decide

/-- Witness for C3: a fresh state (`has_luma = false`), `adjusted = 1`,
`real_min = 47, real_max = 937, hardware_max = 900`. -/
theorem C3_witness :
    (update_brightness 1 ⟨false, 0⟩ (1/100) (((937 : ℕ) : ℚ) - ((47 : ℕ) : ℚ))
        47 937 900).1 = some (spec_mapped_target 1 47 937 900) ∧
    spec_mapped_target 1 47 937 900 ≤ min 937 900 :=
  ⟨(C3_hardware_mapping 1 ⟨false, 0⟩ (1/100) 47 937 900 (Or.inl rfl)
      (by decide) (by decide) (by decide)).1,
   (C3_hardware_mapping 1 ⟨false, 0⟩ (1/100) 47 937 900 (Or.inl rfl)
      (by decide) (by decide) (by decide)).2.2.1⟩

/-! ### Claim C5 -/

/-- **C5**: the gate suppresses (returns no target) exactly when a previous
adjusted value exists and `|adjusted − previous| < min_luma_delta`, and the
adjusted value is recorded as "previous" in both cases; with
`min_luma_delta = 0.01`, `0.50` then `0.505` produces no target while
`0.50` then `0.52` does. -/
theorem C5_dead_band (a d r : ℚ) (st : LumaState) (lo hi hm : ℕ) :
    ((update_brightness a st d r lo hi hm).1 = none ↔
      st.has_luma = true ∧ |a - st.last_adjusted_luma| < d) ∧
    (update_brightness a st d r lo hi hm).2.last_adjusted_luma = a ∧
    (update_brightness 0.505 ⟨true, 0.5⟩ 0.01 (890 : ℚ) 47 937 900).1 = none ∧
    (update_brightness 0.52 ⟨true, 0.5⟩ 0.01 (890 : ℚ) 47 937 900).1.isSome = true := by
  have key : ∀ (a₀ d₀ r₀ : ℚ) (st₀ : LumaState) (lo₀ hi₀ hm₀ : ℕ),
      ((update_brightness a₀ st₀ d₀ r₀ lo₀ hi₀ hm₀).1 = none ↔
        st₀.has_luma = true ∧ |a₀ - st₀.last_adjusted_luma| < d₀) ∧
      (update_brightness a₀ st₀ d₀ r₀ lo₀ hi₀ hm₀).2.last_adjusted_luma = a₀ := by
    intro a₀ d₀ r₀ st₀ lo₀ hi₀ hm₀
    obtain ⟨hl, prev⟩ := st₀
    cases hl <;> constructor <;>
      simp only [update_brightness] <;> split_ifs <;> simp_all
  refine ⟨(key a d r st lo hi hm).1, (key a d r st lo hi hm).2, ?_, ?_⟩
  · refine (key 0.505 0.01 (890 : ℚ) ⟨true, 0.5⟩ 47 937 900).1.mpr ⟨rfl, ?_⟩
    norm_num
    rw [abs_of_pos] <;> norm_num
  · rw [Option.isSome_iff_ne_none]
    intro hnone
    have hiff := (key 0.52 0.01 (890 : ℚ) ⟨true, 0.5⟩ 47 937 900).1.mp hnone
    norm_num at hiff
    rw [abs_of_pos (by norm_num)] at hiff
    norm_num at hiff

/-! ## `StatusReporter` (`src/main.rs` lines 301-378) -/

/-- State of `StatusReporter`; the logger handle is abstracted: the
minimum-severity filter `logger.enabled(level)` becomes the `logger_on`
argument of `record`. -/
structure StatusReporter where
  last_value : ℕ
  last_luma : ℚ
  last_print : ℕ
  base_interval : ℕ
  base_threshold : ℕ
  fast_interval : ℕ
  fast_threshold : ℕ
  enabled : Bool
  only_on_change : Bool
deriving Repr, DecidableEq

/-- `StatusReporter::record` (`src/main.rs` lines 344-377).  Returns whether
a status line was printed, and the new state. -/
def StatusReporter.record (s : StatusReporter) (logger_on : Bool)
    (now brightness : ℕ) (normalized_luma : ℚ) : Bool × StatusReporter :=
  if s.enabled = false then
    (false, { s with last_value := brightness, last_luma := normalized_luma })
  else
    let delta := abs_diff brightness s.last_value
    let interval :=
      if s.fast_threshold ≤ delta then s.fast_interval else s.base_interval
    let changed : Bool := decide (s.base_threshold ≤ delta)
    let expired : Bool := decide (interval ≤ now - s.last_print)
    let should_log : Bool :=
      if s.only_on_change then changed && expired else changed || expired
    if should_log then
      (logger_on, { s with last_value := brightness, last_luma := normalized_luma,
                           last_print := now })
    else
      (false, { s with last_luma := normalized_luma })

/-- The emission condition of § 4.4 of the spec, written from the spec's
words: emit when `only_on_change` is false and `(changed ∨ expired)`, or
when `only_on_change` is true and `(changed ∧ expired)`, with the fast
interval selected when `delta ≥ fast_threshold`. -/
def spec_status_should_emit (s : StatusReporter) (now brightness : ℕ) : Prop :=
  let delta := abs_diff brightness s.last_value
  let interval :=
    if s.fast_threshold ≤ delta then s.fast_interval else s.base_interval
  let changed := s.base_threshold ≤ delta
  let expired := interval ≤ now - s.last_print
  (s.only_on_change = false ∧ (changed ∨ expired)) ∨
  (s.only_on_change = true ∧ (changed ∧ expired))

instance (s : StatusReporter) (now brightness : ℕ) :
    Decidable (spec_status_should_emit s now brightness) := by
  unfold spec_status_should_emit; infer_instance

/-! ### Claim C4 -/

/-- The example configuration of the status-hysteresis property:
`base_threshold = 8`, `fast_threshold = 40`, `base_interval = 5 s`,
`fast_interval = 1 s`, `only_on_change = true`, reporting enabled,
`last_value = 100`, `last_print = 0`. -/
def sC4 : StatusReporter :=
  { last_value := 100, last_luma := 0, last_print := 0
    base_interval := 5000, base_threshold := 8
    fast_interval := 1000, fast_threshold := 40
    enabled := true, only_on_change := true }

/-- **C4**: with reporting enabled, `record` emits exactly under the spec's
dual-rate hysteresis condition, updates `last_value`/`last_print` only on
emission (always recording the luma); on the example configuration a delta
of 50 logs exactly once one fast interval (1 s) has elapsed, and a delta of
5 never logs. -/
theorem C4_status_hysteresis (s : StatusReporter) (hs : s.enabled = true)
    (now brightness : ℕ) (luma : ℚ) :
    ((s.record true now brightness luma).1 = true ↔
      spec_status_should_emit s now brightness) ∧
    ((s.record true now brightness luma).2.last_value =
      if spec_status_should_emit s now brightness then brightness
      else s.last_value) ∧
    ((s.record true now brightness luma).2.last_print =
      if spec_status_should_emit s now brightness then now else s.last_print) ∧
    ((s.record true now brightness luma).2.last_luma = luma) ∧
    (∀ m : ℕ, (sC4.record true m 150 0).1 = true ↔ 1000 ≤ m) ∧
    (∀ m : ℕ, (sC4.record true m 105 0).1 = false) := by
  have hmain : ∀ (s₀ : StatusReporter), s₀.enabled = true →
      ∀ (now₀ brightness₀ : ℕ) (luma₀ : ℚ),
      ((s₀.record true now₀ brightness₀ luma₀).1 = true ↔
        spec_status_should_emit s₀ now₀ brightness₀) ∧
      ((s₀.record true now₀ brightness₀ luma₀).2.last_value =
        if spec_status_should_emit s₀ now₀ brightness₀ then brightness₀
        else s₀.last_value) ∧
      ((s₀.record true now₀ brightness₀ luma₀).2.last_print =
        if spec_status_should_emit s₀ now₀ brightness₀ then now₀
        else s₀.last_print) ∧
      ((s₀.record true now₀ brightness₀ luma₀).2.last_luma = luma₀) := by
    intro s₀ hs₀ now₀ brightness₀ luma₀
    have hcond : spec_status_should_emit s₀ now₀ brightness₀ ↔
        (if s₀.only_on_change
          then decide (s₀.base_threshold ≤ abs_diff brightness₀ s₀.last_value) &&
            decide ((if s₀.fast_threshold ≤ abs_diff brightness₀ s₀.last_value
              then s₀.fast_interval else s₀.base_interval) ≤ now₀ - s₀.last_print)
          else decide (s₀.base_threshold ≤ abs_diff brightness₀ s₀.last_value) ||
            decide ((if s₀.fast_threshold ≤ abs_diff brightness₀ s₀.last_value
              then s₀.fast_interval else s₀.base_interval) ≤ now₀ - s₀.last_print))
          = true := by
      unfold spec_status_should_emit
      cases hoc : s₀.only_on_change <;> simp [hoc]
    rw [StatusReporter.record, if_neg (by rw [hs₀]; simp)]
    simp only []
    by_cases hsp : spec_status_should_emit s₀ now₀ brightness₀
    · rw [if_pos (hcond.mp hsp)]
      exact ⟨by simp [hsp], by rw [if_pos hsp], by rw [if_pos hsp], rfl⟩
    · rw [if_neg (fun hb => hsp (hcond.mpr hb))]
      exact ⟨by simp [hsp], by rw [if_neg hsp], by rw [if_neg hsp], rfl⟩
  refine ⟨(hmain s hs now brightness luma).1, (hmain s hs now brightness luma).2.1,
    (hmain s hs now brightness luma).2.2.1, (hmain s hs now brightness luma).2.2.2,
    ?_, ?_⟩
  · intro m
    rw [(hmain sC4 rfl m 150 0).1]
    unfold spec_status_should_emit sC4
    simp [abs_diff]
  · intro m
    rw [show (sC4.record true m 105 0).1 = false ↔
        ¬ (sC4.record true m 105 0).1 = true by simp]
    rw [(hmain sC4 rfl m 105 0).1]
    unfold spec_status_should_emit sC4
    simp [abs_diff]

/-- Witness for C4 at the example configuration, `now = 1200 ms`,
delta `50` (brightness 150). -/
theorem C4_witness :
    ((sC4.record true 1200 150 0).1 = true ↔
      spec_status_should_emit sC4 1200 150) ∧
    ((sC4.record true 1200 150 0).1 = true ↔ 1000 ≤ 1200) :=
  ⟨(C4_status_hysteresis sC4 rfl 1200 150 0).1,
   (C4_status_hysteresis sC4 rfl 1200 150 0).2.2.2.2.1 1200⟩

/-! ## `ErrorThrottle` (`src/main.rs` lines 380-408) -/

/-- State of `ErrorThrottle`; the logger handle is abstracted as in
`StatusReporter`. -/
structure ErrorThrottle where
  last_log : Option ℕ
  interval : ℕ
deriving Repr, DecidableEq

/-- `ErrorThrottle::log` (`src/main.rs` lines 397-407): emit when no previous
emission exists or at least `interval` has elapsed since it (and the logger
accepts the level); update `last_log` only on emission.  Returns whether the
fault was emitted, and the new state. -/
def ErrorThrottle.log (s : ErrorThrottle) (logger_on : Bool) (now : ℕ) :
    Bool × ErrorThrottle :=
  let should_log :=
    match s.last_log with
    | none => true
    | some t => decide (s.interval ≤ now - t)
  if should_log && logger_on then (true, { s with last_log := some now })
  else (false, s)

/-- Fold `log` over a list of fault arrival times (logger accepting). -/
def ErrorThrottle.run_log (s : ErrorThrottle) (ts : List ℕ) : ErrorThrottle :=
  ts.foldl (fun a n => (a.log true n).2) s

/-- A fault arriving within `interval` of the last emission is suppressed
and leaves the state unchanged. -/
theorem ErrorThrottle.log_suppressed (s : ErrorThrottle) (t u : ℕ)
    (ht : s.last_log = some t) (hu : u - t < s.interval) :
    s.log true u = (false, s) := by
  unfold ErrorThrottle.log
  rw [ht]
  simp [Nat.not_le.mpr hu]

/-! ### Claim C9 -/

/-- **C9**: with a last emission at `t`, a new fault is emitted iff
`interval` has elapsed (`last_log` then moves to `now`, otherwise the state
is untouched); a fresh throttle always emits; a fault is never emitted (and
`last_log` never moves) when the logger filter rejects; and any sequence of
faults all arriving within `interval` of the last emission is suppressed
entirely, no matter how many there are. -/
theorem C9_error_throttle (s : ErrorThrottle) (t now : ℕ) (ts : List ℕ)
    (ht : s.last_log = some t) (hts : ∀ u ∈ ts, u - t < s.interval) :
    ((s.log true now).1 = true ↔ s.interval ≤ now - t) ∧
    ((s.log true now).2.last_log =
      if s.interval ≤ now - t then some now else some t) ∧
    (∀ (i n₀ : ℕ), ((⟨none, i⟩ : ErrorThrottle).log true n₀).1 = true ∧
      ((⟨none, i⟩ : ErrorThrottle).log true n₀).2.last_log = some n₀) ∧
    (∀ (s₂ : ErrorThrottle) (n₁ : ℕ), s₂.log false n₁ = (false, s₂)) ∧
    s.run_log ts = s := by
  have hrun : ∀ (l : List ℕ) (s₀ : ErrorThrottle) (t₀ : ℕ),
      s₀.last_log = some t₀ → (∀ u ∈ l, u - t₀ < s₀.interval) →
      s₀.run_log l = s₀ := by
    intro l
    induction l with
    | nil => intro s₀ t₀ _ _; rfl
    | cons u l ih =>
      intro s₀ t₀ h₀ hall
      have hstep : s₀.log true u = (false, s₀) :=
        ErrorThrottle.log_suppressed s₀ t₀ u h₀ (hall u (List.mem_cons_self u l))
      show ((s₀.log true u).2).run_log l = s₀
      rw [hstep]
      exact ih s₀ t₀ h₀ (fun v hv => hall v (List.mem_cons_of_mem u hv))
  have hlog : s.log true now =
      if s.interval ≤ now - t then (true, { s with last_log := some now })
      else (false, s) := by
    unfold ErrorThrottle.log
    rw [ht]
    simp
  refine ⟨?_, ?_, ?_, ?_, hrun ts s t ht hts⟩
  · rw [hlog]
    split_ifs with h <;> simp_all
  · rw [hlog]
    split_ifs with h <;> simp_all
  · intro i n₀
    constructor <;> rfl
  · intro s₂ n₁
    unfold ErrorThrottle.log
    split <;> simp

/-- Witness for C9: last emission at `t = 1000`, `interval = 5000 ms`, a
fault at `now = 7000` (emitted) and a burst at `1500, 2000, 5999` (all
suppressed). -/
theorem C9_witness :
    (((⟨some 1000, 5000⟩ : ErrorThrottle).log true 7000).1 = true ↔
      5000 ≤ 7000 - 1000) ∧
    (⟨some 1000, 5000⟩ : ErrorThrottle).run_log [1500, 2000, 5999] =
      ⟨some 1000, 5000⟩ :=
  ⟨(C9_error_throttle ⟨some 1000, 5000⟩ 1000 7000 [1500, 2000, 5999] rfl
      (by decide)).1,
   (C9_error_throttle ⟨some 1000, 5000⟩ 1000 7000 [1500, 2000, 5999] rfl
      (by decide)).2.2.2.2⟩

/-! ## `src/backlight.rs` -/

/-- State of `Backlight`: the device ceiling `max_value` (read once at
resolve time) and the `last_value: Cell<Option<u32>>` write cache.  The
filesystem paths are external collaborators and are not modelled. -/
structure Backlight where
  max_value : ℕ
  last_value : Option ℕ
deriving Repr, DecidableEq

/-- `Backlight::set` (`src/backlight.rs` lines 45-55): clamp into
`[0, max_value]`, no-op (returning `Ok`) when the clamped value equals the
cached last-written value, otherwise attempt the file write (outcome
`writeOk`) and update the cache only on success.  Returns
`(attempted, succeeded, new state)`. -/
def Backlight.set (b : Backlight) (value : ℕ) (writeOk : Bool) :
    Bool × Bool × Backlight :=
  if b.last_value = some (min value b.max_value) then (false, true, b)
  else if writeOk then
    (true, true, { b with last_value := some (min value b.max_value) })
  else (true, false, b)

/-! ### Claim C10 -/

/-- **C10**: `set` clamps first and no-ops exactly when the clamped value
equals the cached last successful write; the cache moves only on a
successful write; and after a failed write the state is unchanged, so
re-sending the same value is not suppressed and attempts the hardware write
again. -/
theorem C10_backlight_write_cache (b : Backlight) (value : ℕ)
    (hmiss : b.last_value ≠ some (min value b.max_value)) :
    (∀ (b₂ : Backlight) (v₂ : ℕ) (ok₂ : Bool),
      ((b₂.set v₂ ok₂).1 = false ↔ b₂.last_value = some (min v₂ b₂.max_value))) ∧
    (∀ (b₂ : Backlight) (v₂ : ℕ) (ok₂ : Bool),
      (b₂.set v₂ ok₂).2.2.last_value =
        if b₂.last_value ≠ some (min v₂ b₂.max_value) ∧ ok₂ = true
        then some (min v₂ b₂.max_value) else b₂.last_value) ∧
    (b.set value false).2.2 = b ∧
    (b.set value false).2.1 = false ∧
    ((b.set value false).2.2.set value false).1 = true := by
  have hchar : ∀ (b₂ : Backlight) (v₂ : ℕ) (ok₂ : Bool),
      ((b₂.set v₂ ok₂).1 = false ↔ b₂.last_value = some (min v₂ b₂.max_value)) ∧
      ((b₂.set v₂ ok₂).2.2.last_value =
        if b₂.last_value ≠ some (min v₂ b₂.max_value) ∧ ok₂ = true
        then some (min v₂ b₂.max_value) else b₂.last_value) := by
    intro b₂ v₂ ok₂
    unfold Backlight.set
    split_ifs with h1 h2 <;> simp_all
  have hfail : (b.set value false).2.2 = b ∧ (b.set value false).2.1 = false := by
    unfold Backlight.set
    rw [if_neg hmiss]
    simp
  refine ⟨fun b₂ v₂ ok₂ => (hchar b₂ v₂ ok₂).1,
    fun b₂ v₂ ok₂ => (hchar b₂ v₂ ok₂).2, hfail.1, hfail.2, ?_⟩
  rw [hfail.1]
  unfold Backlight.set
  rw [if_neg hmiss]
  simp

/-- Witness for C10: ceiling 900, cache holds 500, a write of 700 fails and
is retried. -/
theorem C10_witness :
    ((⟨900, some 500⟩ : Backlight).set 700 false).2.2 = ⟨900, some 500⟩ ∧
    (((⟨900, some 500⟩ : Backlight).set 700 false).2.2.set 700 false).1 = true :=
  ⟨(C10_backlight_write_cache ⟨900, some 500⟩ 700 (by decide)).2.2.1,
   (C10_backlight_write_cache ⟨900, some 500⟩ 700 (by decide)).2.2.2.2⟩
